import Mathlib

/-!
Shallow embedding of the carry-forward line transformation implemented in
`src/main.ts` of the obsidian-carry-forward plugin.

Strings are modelled by Lean `String` (a list of characters); JavaScript
string indices are character indices.  External collaborators (the host
link formatter `view.app.fileManager.generateMarkdownLink`, the host
regular-expression engine used for the user-configurable `lineFormatFrom`
pattern, the clipboard, and `Math.random`) are modelled as function-valued
parameters collected in `Env`.  Everything the plugin computes itself
(anchor detection, anchor generation, boundary slicing, blank-line
handling, the `{{LINK}}` placeholder substitution, the control flow of
`copyForwardLines`) is translated directly from the source.
-/

/-- The JavaScript `\s` character class (whitespace as used by
`blockIDRegex`, `/^\s*$/`, `/^\s*/` and `/\s*?$/` in `src/main.ts`). -/
def isJsWs (c : Char) : Bool :=
  c = ' ' || c = '\t' || c = '\n' || c.val = 11 || c.val = 12 || c = '\r' ||
  c.val = 0xa0 || c.val = 0x1680 ||
  (0x2000 ≤ c.val && c.val ≤ 0x200a) || c.val = 0x2028 || c.val = 0x2029 ||
  c.val = 0x202f || c.val = 0x205f || c.val = 0x3000 || c.val = 0xfeff

/-- Character class `[a-zA-Z0-9-]` of `blockIDRegex` in `src/main.ts` line 50. -/
def isAnchorChar (c : Char) : Bool :=
  ('a' ≤ c && c ≤ 'z') || ('A' ≤ c && c ≤ 'Z') || ('0' ≤ c && c ≤ '9') || c = '-'

/-- Character class `[a-z0-9-]` of the `genID` alphabet (spec section 8). -/
def isNewIDChar (c : Char) : Bool :=
  ('a' ≤ c && c ≤ 'z') || ('0' ≤ c && c ≤ '9') || c = '-'

/-- `copiedLine.replace(/^\s*/, "")` of `src/main.ts` line 92: strip the
leading run of whitespace. -/
def lstripStr (s : String) : String := String.mk (s.toList.dropWhile isJsWs)

/-- The list of characters remaining after removing the maximal trailing
whitespace run.  `line.replace(/\s*?$/, x)` (line 136 of `src/main.ts`)
replaces exactly that run (the leftmost match of the lazy pattern is the
start of the maximal trailing whitespace run), so it equals
`String.mk (rstripL line.toList) ++ x`. -/
def rstripL (l : List Char) : List Char := (l.reverse.dropWhile isJsWs).reverse

/-- `line.match(/^\s*$/)` of `src/main.ts` line 106: the line is empty or
whitespace-only. -/
def isBlank (s : String) : Bool := s.toList.all isJsWs

/-- Matching of `blockIDRegex = /(?<=[\s^])\^[a-zA-Z0-9-]+$/u`
(`src/main.ts` line 50) against the suffix of a line, scanning
left-to-right as the JavaScript engine does.  `prev` is the character
immediately before the current position (the lookbehind context); it is
`none` at the start of the string.  Note that inside the character class
`[\s^]` the caret is a literal character, so the lookbehind accepts a
whitespace character or a literal `^`, and never succeeds at the start of
the string.  Returns the leftmost match (which is necessarily a suffix of
the line). -/
def lookbehindOK : Option Char → Bool
  | some p => isJsWs p || p = '^'
  | none => false

def findBlockID : Option Char → List Char → Option (List Char)
  | _, [] => none
  | prev, c :: rest =>
    if lookbehindOK prev = true
       ∧ c = '^' ∧ rest ≠ [] ∧ rest.all isAnchorChar = true then
      some (c :: rest)
    else
      findBlockID (some c) rest

/-- `line.match(blockIDRegex)` on a whole line. -/
def lineBlockID (s : String) : Option (List Char) := findBlockID none s.toList

/-- `copiedLine.replace(blockIDRegex, "")` of `src/main.ts` line 165:
remove the leftmost (and only possible, suffix) match of `blockIDRegex`. -/
def removeBlockIDStr (s : String) : String :=
  match lineBlockID s with
  | none => s
  | some m => String.mk (s.toList.take (s.toList.length - m.length))

/-- The alphabet string of `genID` (`src/main.ts` line 29). -/
def charactersStr : String := "abcdefghijklmnopqrstuvwxyz-0123456789"

/-- The `genID` alphabet as a character list. -/
def characters : List Char := charactersStr.toList

theorem characters_length : characters.length = 37 := rfl

/-- `genID` of `src/main.ts` lines 28-35: the loop appends one character
`characters[Math.floor(Math.random() * characters.length)]` per iteration
until the identifier has length 5, then `slice(0, 5)` is the identity.
The successive values `Math.floor(Math.random() * 37)` are modelled by a
stream of draws in `Fin 37`. -/
def genIDFrom (draws : Nat → Fin 37) : String :=
  String.mk ((List.range 5).map fun i =>
    characters.get (Fin.cast characters_length.symm (draws i)))

/-- JavaScript `String.prototype.slice` index normalisation: negative
indices count from the end, and both are clamped to `[0, len]`. -/
def jsSliceIdx (len : Nat) (x : Int) : Nat :=
  if x < 0 then ((len : Int) + x).toNat else min x.toNat len

/-- JavaScript `s.slice(start, stop)` (used at `src/main.ts` lines 99-102). -/
def jsSlice (s : String) (start stop : Int) : String :=
  let l := s.toList
  let a := jsSliceIdx l.length start
  let b := jsSliceIdx l.length stop
  String.mk ((l.drop a).take (b - a))

/-- JavaScript `s.replace(pat, repl)` with a *string* pattern: replace the
leftmost occurrence of `pat` (if any) with `repl`.  Used for the
`{{LINK}}` placeholder substitutions at `src/main.ts` lines 142, 146, 162
and 168.  (`$`-escape processing in the replacement is not modelled; the
replacement is inserted verbatim.) -/
def replaceFirstSub (pat repl : List Char) : List Char → List Char
  | [] => if pat.isPrefixOf ([] : List Char) then repl else []
  | c :: rest =>
    if pat.isPrefixOf (c :: rest) then repl ++ (c :: rest).drop pat.length
    else c :: replaceFirstSub pat repl rest

/-- String-level wrapper for `replaceFirstSub`. -/
def replaceFirstStr (s pat repl : String) : String :=
  String.mk (replaceFirstSub pat.toList repl.toList s.toList)

/-- The `{{LINK}}` placeholder token. -/
def linkToken : String := "\x7b\x7bLINK\x7d\x7d"

/-- One pass of the double-escape fixups in `validateRegex`
(`src/main.ts` lines 389-395): a global, leftmost, non-overlapping
replacement of the two-character sequence `a b` by the character `r`. -/
def replacePair (a b r : Char) : List Char → List Char
  | [] => []
  | [x] => [x]
  | x :: y :: rest =>
    if x = a ∧ y = b then r :: replacePair a b r rest
    else x :: replacePair a b r (y :: rest)

/-- The `updatedRegexString` of `validateRegex`: `\n`, `\t`, `\r`
(backslash-letter pairs) replaced by the corresponding control characters,
in that order. -/
def unescapeSetting (s : String) : String :=
  String.mk (replacePair '\\' 'r' '\r'
    (replacePair '\\' 't' '\t'
      (replacePair '\\' 'n' '\n' s.toList)))

/-- `CarryForwardPluginSettings` of `src/main.ts` lines 12-18. -/
structure Settings where
  linkText : String
  copiedLinkText : String
  lineFormatFrom : String
  lineFormatTo : String
  removeLeadingWhitespace : Bool
deriving DecidableEq, Repr

/-- `DEFAULT_SETTINGS` of `src/main.ts` lines 20-26. -/
def DEFAULT_SETTINGS : Settings :=
  ⟨"", "(see " ++ linkToken ++ ")", "\\s*$", " (see " ++ linkToken ++ ")", true⟩

/-- `CopyTypes` of `src/main.ts` lines 37-42. -/
inductive CopyTypes
  | SeparateLines
  | CombinedLines
  | LinkOnly
  | LinkOnlyEmbed
deriving DecidableEq, Repr

/-- `Mode` of `src/main.ts` lines 44-48. -/
inductive Mode
  | LinkTextFromSettings
  | LinkTextFromSelection
  | LinkTextFromClipboard
deriving DecidableEq, Repr

/-- An editor position (`line`, `ch`) as used by `editor.getCursor`. -/
structure Pos where
  line : Nat
  ch : Nat
deriving DecidableEq, Repr

/-- External collaborators of `copyForwardLines`: the current selection
text, the clipboard content, the host link formatter
(`generateMarkdownLink`, taking the `#^id` subpath and the display text),
the host regular-expression engine (first-match replace for the
user-configured pattern, compile check and compile-error text), and the
stream of `genID` results (one per call, in call order). -/
structure Env where
  selectionText : String
  clipboardText : String
  genLink : String → String → String
  regexReplaceFirst : String → String → String → String
  regexCompiles : String → Bool
  regexErrorText : String → String
  ids : Nat → String

/-- `editor.getLine` over the document's line list. -/
def getLine (doc : List String) (n : Nat) : String := doc.getD n ""

/-- `validateRegex` of `src/main.ts` lines 386-406: returns
(`valid`, `string`) where `string` is the unescaped pattern when it
compiles, and the quoted pattern plus engine error text otherwise. -/
def validateRegex (compiles : String → Bool) (errText : String → String)
    (regexString : String) : Bool × String :=
  let updated := unescapeSetting regexString
  if compiles updated then (true, updated)
  else (false, "\"" ++ updated ++ "\": \"" ++ errText updated ++ "\"")

/-- The warning message of `src/main.ts` lines 61-64. -/
def invalidFromMessage (env : Env) (p : String) : String :=
  "Error: \x27From\x27 setting is invalid:\n\n" ++
    (validateRegex env.regexCompiles env.regexErrorText p).2 ++
    "\n\nPlease update the Carry-Forward settings and try again."

/-- The per-line pre-processing of `copiedLine` (`src/main.ts` lines
84-103): optional leading-whitespace strip for first-line equal-column
selections, then boundary slicing for first/last lines of non-collapsed
selections (note the slice reads from the original `line`, and the end
bound on a first-but-not-last line is `line.length - 1`). -/
def computeCopiedLine (s : Settings) (cursorFrom cursorTo : Pos)
    (lineNumber : Nat) (line : String) : String :=
  let c1 :=
    if s.removeLeadingWhitespace = true ∧ lineNumber = cursorFrom.line ∧
       cursorFrom.ch = cursorTo.ch then
      lstripStr line
    else line
  if (lineNumber = cursorFrom.line ∨ lineNumber = cursorTo.line) ∧
     ¬(cursorFrom.line = cursorTo.line ∧ cursorFrom.ch = cursorTo.ch) then
    jsSlice line
      (if lineNumber = cursorFrom.line then (cursorFrom.ch : Int) else 0)
      (if lineNumber = cursorTo.line then (cursorTo.ch : Int)
       else (line.length : Int) - 1)
  else c1

/-- The per-mode link display text (`src/main.ts` lines 114-121). -/
def linkTextFor (env : Env) (s : Settings) (mode : Mode) : String :=
  match mode with
  | Mode.LinkTextFromSettings => s.linkText
  | Mode.LinkTextFromSelection => env.selectionText
  | Mode.LinkTextFromClipboard => env.clipboardText

/-- The copied-line composition for the LinkOnly / LinkOnlyEmbed modes
(`src/main.ts` lines 137-142 and 157-162). -/
def composeLinkOnly (s : Settings) (copy : CopyTypes) (link : String) : String :=
  if copy = CopyTypes.LinkOnlyEmbed then "!" ++ link
  else replaceFirstStr s.copiedLinkText linkToken link

/-- The copied-line composition for the line-carry modes (`src/main.ts`
lines 144-147 and 164-169): first-match replacement of the configured
`from` pattern by the `to` template with `{{LINK}}` filled in. -/
def composeCarry (env : Env) (s : Settings) (base link : String) : String :=
  env.regexReplaceFirst s.lineFormatFrom
    (replaceFirstStr s.lineFormatTo linkToken link) base

/-- The copied-output gate of `src/main.ts` lines 174-181: in
LinkOnly/LinkOnlyEmbed modes, lines other than the first contribute
nothing to `copiedLines`. -/
def outGate (copy : CopyTypes) (lineNumber minLine : Nat) (c : String) :
    Option String :=
  if (copy = CopyTypes.LinkOnly ∨ copy = CopyTypes.LinkOnlyEmbed) ∧
     ¬(lineNumber = minLine) then none
  else some c

/-- One iteration of the main loop of `copyForwardLines` (`src/main.ts`
lines 82-183).  Returns the entry pushed to `updatedLines`, the entry
pushed to `copiedLines` (if any), and the updated count of `genID` calls.
`counter` indexes into `env.ids`, the stream of `genID` results. -/
def processLine (doc : List String) (env : Env) (s : Settings)
    (copy : CopyTypes) (mode : Mode) (cursorFrom cursorTo : Pos)
    (lineNumber counter : Nat) : String × Option String × Nat :=
  let line := getLine doc lineNumber
  let copiedLine := computeCopiedLine s cursorFrom cursorTo lineNumber line
  if isBlank line = true ∧
     ¬(lineNumber = cursorFrom.line ∧ cursorFrom.line = cursorTo.line) then
    (line, some copiedLine, counter)
  else if copy = CopyTypes.SeparateLines ∨ lineNumber = cursorFrom.line then
    match lineBlockID line with
    | none =>
      let newID : String := "^" ++ env.ids counter
      let link := env.genLink ("#" ++ newID) (linkTextFor env s mode)
      let line2 := String.mk (rstripL line.toList ++ (' ' :: newID.toList))
      let copied2 :=
        if copy = CopyTypes.LinkOnly ∨ copy = CopyTypes.LinkOnlyEmbed then
          composeLinkOnly s copy link
        else composeCarry env s copiedLine link
      (line2, outGate copy lineNumber cursorFrom.line copied2, counter + 1)
    | some m =>
      let link := env.genLink ("#" ++ String.mk m) (linkTextFor env s mode)
      let copied2 :=
        if copy = CopyTypes.LinkOnly ∨ copy = CopyTypes.LinkOnlyEmbed then
          composeLinkOnly s copy link
        else composeCarry env s (removeBlockIDStr copiedLine) link
      (line, outGate copy lineNumber cursorFrom.line copied2, counter)
  else (line, outGate copy lineNumber cursorFrom.line copiedLine, counter)

/-- The list of line numbers `start, start+1, ...` of length `count`
(the loop range `minLine..maxLine` of `src/main.ts` line 82). -/
def lineNums (start : Nat) : Nat → List Nat
  | 0 => []
  | n + 1 => start :: lineNums (start + 1) n

/-- The main loop of `copyForwardLines`: accumulate `updatedLines`,
`copiedLines` and the `genID` call count over the selected line numbers. -/
def runLines (doc : List String) (env : Env) (s : Settings)
    (copy : CopyTypes) (mode : Mode) (cursorFrom cursorTo : Pos) :
    List Nat → Nat → List String × List String × Nat
  | [], counter => ([], [], counter)
  | n :: rest, counter =>
    let r := processLine doc env s copy mode cursorFrom cursorTo n counter
    let k := runLines doc env s copy mode cursorFrom cursorTo rest r.2.2
    (r.1 :: k.1,
     (match r.2.1 with
      | some c => c :: k.2.1
      | none => k.2.1),
     k.2.2)

/-- The observable outcome of a successful `copyForwardLines` call: the
replacement lines written back over the selected range, the lines pushed
to the copied collection, the clipboard text (their newline join), and
the number of `genID` calls made. -/
structure TransformOut where
  updatedLines : List String
  copiedLines : List String
  clipboardText : String
  idsUsed : Nat
deriving DecidableEq, Repr

/-- `copyForwardLines` of `src/main.ts` lines 52-196.  An invalid `from`
pattern aborts before any line processing with only the warning message
(`Except.error`); otherwise the function produces the rewritten range,
the copied lines and the clipboard text (`Except.ok`). -/
def copyForwardLines (doc : List String) (env : Env) (s : Settings)
    (copy : CopyTypes) (mode : Mode) (cursorFrom cursorTo : Pos) :
    Except String TransformOut :=
  if (validateRegex env.regexCompiles env.regexErrorText s.lineFormatFrom).1
      = true then
    let minLine := cursorFrom.line
    let maxLine := cursorTo.line
    let r := runLines doc env s copy mode cursorFrom cursorTo
      (lineNums minLine (maxLine + 1 - minLine)) 0
    Except.ok ⟨r.1, r.2.1, String.intercalate "\n" r.2.1, r.2.2⟩
  else Except.error (invalidFromMessage env s.lineFormatFrom)

/-- Copied lines of a transform result (empty when aborted). -/
def copiedOf : Except String TransformOut → List String
  | Except.ok o => o.copiedLines
  | Except.error _ => []

/-- Updated lines of a transform result (empty when aborted). -/
def updatedOf : Except String TransformOut → List String
  | Except.ok o => o.updatedLines
  | Except.error _ => []

/-- A `genID` result as consumed by the transform: nonempty and drawn
from characters accepted by `blockIDRegex`. -/
def isValidID (s : String) : Bool :=
  decide (s.toList ≠ []) && s.toList.all isAnchorChar

example : lineBlockID "foo ^abc12" = some "^abc12".toList := by decide
example : lineBlockID "^abc12" = none := by decide
example : lineBlockID "foo ^^abc" = some "^abc".toList := by decide
example : lineBlockID "foo ^ab cd" = none := by decide
example : jsSlice "abcd" 1 3 = "bc" := by decide
example : lstripStr "  ab " = "ab " := by decide
example : String.mk (rstripL "  ab ".toList) = "  ab" := by decide
example : replaceFirstStr "a X b X" "X" "Y" = "a Y b X" := by decide
example : unescapeSetting "a\\nb" = "a\nb" := by decide
example : isBlank " \t " = true := by decide

/-! ### Characterisation of `blockIDRegex` matching (claim C1) -/

theorem findBlockID_nil (prev : Option Char) : findBlockID prev [] = none := rfl

theorem findBlockID_cons (prev : Option Char) (c : Char) (rest : List Char) :
    findBlockID prev (c :: rest) =
    if lookbehindOK prev = true
       ∧ c = '^' ∧ rest ≠ [] ∧ rest.all isAnchorChar = true then
      some (c :: rest)
    else findBlockID (some c) rest := rfl

theorem lookbehindOK_some (p : Char) :
    lookbehindOK (some p) = (isJsWs p || p = '^') := rfl

/-- Soundness direction of the `findBlockID` scan: a successful match
splits the line at a `^` whose preceding character is whitespace or a
literal caret (or, for a match at the very first position, the
lookbehind context `prev`). -/
theorem findBlockID_isSome_cases :
    ∀ (l : List Char) (prev : Option Char),
      (findBlockID prev l).isSome = true →
      (∃ pre p tok, l = pre ++ p :: '^' :: tok ∧
        (isJsWs p = true ∨ p = '^') ∧ tok ≠ [] ∧ tok.all isAnchorChar = true) ∨
      (∃ tok, l = '^' :: tok ∧
        (∃ p, prev = some p ∧ (isJsWs p = true ∨ p = '^')) ∧
        tok ≠ [] ∧ tok.all isAnchorChar = true)
  | [], prev => by simp [findBlockID]
  | c :: rest, prev => by
    intro h
    rw [findBlockID_cons] at h
    by_cases hc : lookbehindOK prev = true
        ∧ c = '^' ∧ rest ≠ [] ∧ rest.all isAnchorChar = true
    · obtain ⟨hp, hcaret, hne, hall⟩ := hc
      cases prev with
      | none => exact absurd hp (by simp [lookbehindOK])
      | some p =>
        right
        refine ⟨rest, by rw [hcaret], ⟨p, rfl, ?_⟩, hne, hall⟩
        rw [lookbehindOK_some] at hp
        rcases Bool.or_eq_true _ _ |>.mp hp with h1 | h1
        · exact Or.inl h1
        · exact Or.inr (of_decide_eq_true h1)
    · rw [if_neg hc] at h
      rcases findBlockID_isSome_cases rest (some c) h with
        ⟨pre, p, tok, hsplit, hok, hne, hall⟩ | ⟨tok, hsplit, ⟨p, hp, hok⟩, hne, hall⟩
      · exact Or.inl ⟨c :: pre, p, tok, by rw [hsplit]; rfl, hok, hne, hall⟩
      · cases hp
        exact Or.inl ⟨[], c, tok, by rw [hsplit]; rfl, hok, hne, hall⟩

/-- Completeness direction of the `findBlockID` scan: any split of the
line at a whitespace-or-caret character followed by `^` and a nonempty
run of anchor characters to end-of-line yields a match. -/
theorem findBlockID_isSome_of_split :
    ∀ (pre : List Char) (prev : Option Char) (p : Char) (tok : List Char),
      (isJsWs p = true ∨ p = '^') → tok ≠ [] → tok.all isAnchorChar = true →
      (findBlockID prev (pre ++ p :: '^' :: tok)).isSome = true
  | [], prev, p, tok => by
    intro hok hne hall
    show (findBlockID prev (p :: '^' :: tok)).isSome = true
    rw [findBlockID_cons]
    by_cases hc : lookbehindOK prev = true
        ∧ p = '^' ∧ ('^' :: tok) ≠ [] ∧ ('^' :: tok).all isAnchorChar = true
    · rw [if_pos hc]; rfl
    · rw [if_neg hc, findBlockID_cons]
      have hmatch : lookbehindOK (some p) = true := by
        rw [lookbehindOK_some]
        rcases hok with h1 | h1
        · exact Bool.or_eq_true _ _ |>.mpr (Or.inl h1)
        · exact Bool.or_eq_true _ _ |>.mpr (Or.inr (decide_eq_true h1))
      rw [if_pos ⟨hmatch, rfl, hne, hall⟩]
      rfl
  | x :: pre, prev, p, tok => by
    intro hok hne hall
    show (findBlockID prev (x :: (pre ++ p :: '^' :: tok))).isSome = true
    rw [findBlockID_cons]
    by_cases hc : lookbehindOK prev = true
        ∧ x = '^' ∧ (pre ++ p :: '^' :: tok) ≠ []
        ∧ (pre ++ p :: '^' :: tok).all isAnchorChar = true
    · rw [if_pos hc]; rfl
    · rw [if_neg hc]
      exact findBlockID_isSome_of_split pre (some x) p tok hok hne hall

/-- C1 (corrected, counterexample): the claim states that a line
consisting solely of an anchor token (anchor character at start of line)
is recognized as already anchored; but `blockIDRegex`'s lookbehind class
`[\s^]` contains a literal caret, not a start-of-line assertion, so
`"^abc12"` is not recognized, while `" ^abc12"` (whitespace before the
caret) is. -/
theorem c1_counterexample :
    lineBlockID "^abc12" = none ∧
    lineBlockID " ^abc12" = some "^abc12".toList := by
  constructor
  · rfl
  · rfl

/-- C1 (amended): a trailing token `^` + nonempty run of `[a-zA-Z0-9-]`
at end-of-line is recognized as an existing anchor exactly when the
anchor character is immediately preceded by a whitespace character or a
literal `^` character; in particular a line consisting solely of such a
token (no preceding character at all) is not recognized. -/
theorem c1_amended_blockID_boundary (s : String) :
    (lineBlockID s).isSome = true ↔
    ∃ pre p tok, s.toList = pre ++ p :: '^' :: tok ∧
      (isJsWs p = true ∨ p = '^') ∧ tok ≠ [] ∧ tok.all isAnchorChar = true := by
  constructor
  · intro h
    rcases findBlockID_isSome_cases s.toList none h with
      hleft | ⟨tok, _, ⟨p, hp, _⟩, _, _⟩
    · exact hleft
    · exact absurd hp (by simp)
  · rintro ⟨pre, p, tok, hsplit, hok, hne, hall⟩
    show (findBlockID none s.toList).isSome = true
    rw [hsplit]
    exact findBlockID_isSome_of_split pre none p tok hok hne hall

/-! ### Column slicing (claim C2) -/

/-- C2 (corrected, counterexample): on the first line of a multi-line
selection the claim predicts a copy from the start column through the end
of the line, i.e. `"bcd"` for line `"abcd"` with the selection starting
at column 1 on line 0 and ending on line 1; the code slices to
`line.length - 1` and produces `"bc"`. -/
theorem c2_counterexample :
    computeCopiedLine DEFAULT_SETTINGS ⟨0, 1⟩ ⟨1, 1⟩ 0 "abcd" = "bc" ∧
    ("bc" : String) ≠ "bcd" := by
  constructor
  · rfl
  · decide

/-- C2 (amended): for every selection spanning more than a single
collapsed point, the copied line is sliced to the selected column range
on the boundary lines: on a multi-line selection the first line is
sliced from the start column to `line.length - 1` (dropping the line's
final character rather than running through the end of the line) and
the last line from column 0 (the full-line bound) to the end column;
on a single-line non-collapsed selection the line is sliced from the
start column to the end column. -/
theorem c2_amended_column_slicing (s : Settings) (cf ct : Pos)
    (line : String) :
    (cf.line ≠ ct.line →
      computeCopiedLine s cf ct cf.line line =
        jsSlice line (cf.ch : Int) ((line.length : Int) - 1) ∧
      computeCopiedLine s cf ct ct.line line =
        jsSlice line 0 (ct.ch : Int)) ∧
    (cf.line = ct.line → cf.ch ≠ ct.ch →
      computeCopiedLine s cf ct cf.line line =
        jsSlice line (cf.ch : Int) (ct.ch : Int)) := by
  constructor
  · intro h
    constructor
    · unfold computeCopiedLine
      rw [if_pos ⟨Or.inl rfl, fun hc => h hc.1⟩, if_pos rfl, if_neg h]
    · unfold computeCopiedLine
      rw [if_pos ⟨Or.inr rfl, fun hc => h hc.1⟩, if_neg (Ne.symm h),
        if_pos rfl]
  · intro hl hch
    unfold computeCopiedLine
    rw [if_pos ⟨Or.inl rfl, fun hc => hch hc.2⟩, if_pos rfl, if_pos hl]

/-- Witness for `c2_amended_column_slicing`: the three slicing equations
at concrete inputs — first and last line of a multi-line selection, and
a single-line non-collapsed selection. -/
theorem c2_amended_witness :
    (computeCopiedLine DEFAULT_SETTINGS ⟨0, 1⟩ ⟨1, 1⟩ 0 "abcd" =
       jsSlice "abcd" 1 3 ∧
     computeCopiedLine DEFAULT_SETTINGS ⟨0, 1⟩ ⟨1, 1⟩ 1 "wxyz" =
       jsSlice "wxyz" 0 1) ∧
    computeCopiedLine DEFAULT_SETTINGS ⟨0, 1⟩ ⟨0, 3⟩ 0 "abcd" =
      jsSlice "abcd" 1 3 :=
  ⟨⟨((c2_amended_column_slicing DEFAULT_SETTINGS ⟨0, 1⟩ ⟨1, 1⟩ "abcd").1
       (by decide)).1,
    ((c2_amended_column_slicing DEFAULT_SETTINGS ⟨0, 1⟩ ⟨1, 1⟩ "wxyz").1
       (by decide)).2⟩,
   (c2_amended_column_slicing DEFAULT_SETTINGS ⟨0, 1⟩ ⟨0, 3⟩ "abcd").2
     rfl (by decide)⟩

/-! ### Invalid-pattern atomicity (claim C4) -/

/-- C4 (confirmed): for every document, environment, copy mode, link-text
mode and selection, when the configured `from` pattern (after the
`validateRegex` escape fixups) does not compile in the host regex engine,
`copyForwardLines` aborts before any line processing: the result is only
the warning message, with no rewritten range and no clipboard text. -/
theorem c4_invalid_pattern_atomicity (doc : List String) (env : Env)
    (s : Settings) (copy : CopyTypes) (mode : Mode) (cf ct : Pos)
    (h : env.regexCompiles (unescapeSetting s.lineFormatFrom) = false) :
    copyForwardLines doc env s copy mode cf ct =
      Except.error (invalidFromMessage env s.lineFormatFrom) := by
  simp [copyForwardLines, validateRegex, invalidFromMessage, h]

/-- Witness for `c4_invalid_pattern_atomicity` at a concrete input. -/
theorem c4_witness :
    (Env.mk "" "" (fun _ _ => "") (fun _ _ x => x) (fun _ => false)
        (fun _ => "bad pattern") (fun _ => "abcde")).regexCompiles
      (unescapeSetting DEFAULT_SETTINGS.lineFormatFrom) = false ∧
    copyForwardLines ["alpha"]
      (Env.mk "" "" (fun _ _ => "") (fun _ _ x => x) (fun _ => false)
        (fun _ => "bad pattern") (fun _ => "abcde"))
      DEFAULT_SETTINGS CopyTypes.SeparateLines Mode.LinkTextFromSettings
      ⟨0, 0⟩ ⟨0, 0⟩ =
      Except.error (invalidFromMessage
        (Env.mk "" "" (fun _ _ => "") (fun _ _ x => x) (fun _ => false)
          (fun _ => "bad pattern") (fun _ => "abcde"))
        DEFAULT_SETTINGS.lineFormatFrom) :=
  ⟨rfl,
   c4_invalid_pattern_atomicity ["alpha"] _ DEFAULT_SETTINGS
     CopyTypes.SeparateLines Mode.LinkTextFromSettings ⟨0, 0⟩ ⟨0, 0⟩ rfl⟩

/-! ### Mutual exclusivity of strip and slice (claim C7) -/

/-- C7 (confirmed): the leading-whitespace strip and the column slice
never both take effect on the same line.  Whenever the slicing guard
holds for a line (first or last line of a selection that spans more than
a single collapsed point), the computed copied line is the same whether
the strip setting is on or off — the slice reads from the original line,
so the strip never contributes; and when the slicing guard fails, no
slicing happens, leaving the strip as the only possible effect (which
requires an equal-column, hence collapsed-when-single-line, selection). -/
theorem c7_preprocessing_exclusive (lt clt ff ft : String) (cf ct : Pos)
    (n : Nat) (line : String)
    (h : (n = cf.line ∨ n = ct.line) ∧
      ¬(cf.line = ct.line ∧ cf.ch = ct.ch)) :
    computeCopiedLine ⟨lt, clt, ff, ft, true⟩ cf ct n line =
      computeCopiedLine ⟨lt, clt, ff, ft, false⟩ cf ct n line := by
  unfold computeCopiedLine
  rw [if_pos h, if_pos h]

/-- Witness for `c7_preprocessing_exclusive` at a concrete input. -/
theorem c7_witness :
    (((0 : Nat) = 0 ∨ (0 : Nat) = 2) ∧ ¬((0 : Nat) = 2 ∧ (3 : Nat) = 3)) ∧
    computeCopiedLine ⟨"a", "b", "c", "d", true⟩ ⟨0, 3⟩ ⟨2, 3⟩ 0 "  hello" =
      computeCopiedLine ⟨"a", "b", "c", "d", false⟩ ⟨0, 3⟩ ⟨2, 3⟩ 0 "  hello" :=
  ⟨by decide,
   c7_preprocessing_exclusive "a" "b" "c" "d" ⟨0, 3⟩ ⟨2, 3⟩ 0 "  hello"
     (by decide)⟩

/-! ### Single placeholder substitution (claim C10) -/

theorem replaceFirstSub_cons (pat repl : List Char) (c : Char)
    (rest : List Char) :
    replaceFirstSub pat repl (c :: rest) =
    if pat.isPrefixOf (c :: rest) then repl ++ (c :: rest).drop pat.length
    else c :: replaceFirstSub pat repl rest := rfl

/-- First-occurrence behaviour of the string-pattern `replace`: when the
input splits as `a ++ p ++ b` and no occurrence of `p` starts inside `a`,
exactly the shown occurrence is replaced and `b` is left untouched. -/
theorem replaceFirstSub_split (p r : List Char) (hp : p ≠ []) :
    ∀ (a b : List Char),
      (∀ i, i < a.length →
        p.isPrefixOf ((a ++ p ++ b).drop i) = false) →
      replaceFirstSub p r (a ++ p ++ b) = a ++ r ++ b
  | [], b, _ => by
    match p, hp with
    | ph :: pt, _ =>
      show replaceFirstSub (ph :: pt) r (ph :: (pt ++ b)) = r ++ b
      rw [replaceFirstSub_cons]
      rw [if_pos (show (ph :: pt).isPrefixOf (ph :: (pt ++ b)) = true from
        List.isPrefixOf_iff_prefix.mpr (List.prefix_append _ _))]
      show r ++ List.drop (ph :: pt).length ((ph :: pt) ++ b) = r ++ b
      rw [List.drop_left]
  | x :: a, b, h => by
    show replaceFirstSub p r (x :: (a ++ p ++ b)) = x :: (a ++ r ++ b)
    rw [replaceFirstSub_cons]
    rw [if_neg (by
      have h0 := h 0 (Nat.succ_pos _)
      rw [List.drop_zero] at h0
      show ¬p.isPrefixOf (x :: (a ++ p ++ b)) = true
      rw [show x :: (a ++ p ++ b) = (x :: a) ++ p ++ b from rfl, h0]
      decide)]
    rw [replaceFirstSub_split p r hp a b (fun i hi => by
      have hs := h (i + 1) (Nat.succ_lt_succ hi)
      rw [show ((x :: a) ++ p ++ b).drop (i + 1) = (a ++ p ++ b).drop i
          from rfl] at hs
      exact hs)]

/-- C10 (confirmed): when a template (the `to` replacement template or
the copied-reference template) contains the `{{LINK}}` placeholder more
than once, only the first occurrence is replaced by the constructed link;
every later occurrence (here: all occurrences inside `b`) remains as
literal `{{LINK}}` text in the output. -/
theorem c10_single_placeholder (t a b link : String)
    (ht : t = a ++ linkToken ++ b)
    (hfirst : ∀ i, i < a.length →
      linkToken.toList.isPrefixOf ((a ++ linkToken ++ b).toList.drop i)
        = false) :
    replaceFirstStr t linkToken link = a ++ link ++ b := by
  subst ht
  show String.mk (replaceFirstSub linkToken.toList link.toList
    (a ++ linkToken ++ b).toList) = a ++ link ++ b
  have hlist : (a ++ linkToken ++ b).toList =
      a.toList ++ linkToken.toList ++ b.toList := by
    simp [String.toList, String.data_append]
  have hlen : a.length = a.toList.length := rfl
  rw [hlist]
  rw [replaceFirstSub_split linkToken.toList link.toList (by decide)
    a.toList b.toList (fun i hi => by
      have hs := hfirst i (by rw [hlen]; exact hi)
      rw [hlist] at hs
      exact hs)]
  show String.mk ((a.toList ++ link.toList) ++ b.toList) = a ++ link ++ b
  have : (a ++ link ++ b).toList = (a.toList ++ link.toList) ++ b.toList := by
    simp [String.toList, String.data_append]
  rw [← this]
  rfl

/-- Witness for `c10_single_placeholder`: the template
`"x {{LINK}} y {{LINK}} z"` keeps its second placeholder literal. -/
theorem c10_witness :
    ("x " ++ linkToken ++ (" y " ++ linkToken ++ " z") =
      "x " ++ linkToken ++ (" y " ++ linkToken ++ " z") ∧
     ∀ i, i < ("x " : String).length →
       linkToken.toList.isPrefixOf
         ((("x " : String) ++ linkToken ++ (" y " ++ linkToken ++ " z")).toList.drop i)
         = false) ∧
    replaceFirstStr ("x " ++ linkToken ++ (" y " ++ linkToken ++ " z"))
      linkToken "[[note#^abcde]]" =
      "x " ++ "[[note#^abcde]]" ++ (" y " ++ linkToken ++ " z") :=
  ⟨⟨rfl, by decide⟩,
   c10_single_placeholder _ "x " (" y " ++ linkToken ++ " z")
     "[[note#^abcde]]" rfl (by decide)⟩

/-! ### Concrete environments for counterexamples and witnesses -/

/-- A concrete environment: link formatter renders wiki-style links, the
host regex engine accepts every pattern and replaces nothing, `genID`
always draws `"abcde"`. -/
def testEnv : Env :=
  Env.mk "SEL" "CLIP" (fun sub txt => "[[note" ++ sub ++ "|" ++ txt ++ "]]")
    (fun _ _ x => x) (fun _ => true) (fun _ => "") (fun _ => "abcde")

/-- A concrete environment whose regex engine replaces every input line
by `"X"` (making the from/to substitution observable). -/
def envConstX : Env :=
  Env.mk "" "" (fun _ _ => "L") (fun _ _ _ => "X") (fun _ => true)
    (fun _ => "") (fun _ => "abcde")

/-! ### Blank-line shortcut (claim C6) -/

/-- C6 (corrected, counterexample): on a single-line, non-collapsed
selection (columns 0 to 1 of line 0) over the whitespace-only line
`"  "`, the claim predicts the blank-line pass-through; the code's guard
exempts every single-line selection (not only collapsed ones), so the
line is anchored: the rewritten line is `" ^abcde"`, not `"  "`. -/
theorem c6_counterexample :
    updatedOf (copyForwardLines ["  "] testEnv DEFAULT_SETTINGS
        CopyTypes.SeparateLines Mode.LinkTextFromSettings ⟨0, 0⟩ ⟨0, 1⟩) =
      [" ^abcde"] ∧ (" ^abcde" : String) ≠ "  " := by
  constructor
  · rfl
  · decide

/-- C6 (amended): the blank-line shortcut passes a whitespace-only line
through unchanged (both the original line and the computed copied line,
with no anchor or link processing) exactly when the line is not the sole
line of a single-line selection — regardless of whether that single-line
selection is collapsed. -/
theorem c6_amended_blank_shortcut (doc : List String) (env : Env)
    (s : Settings) (copy : CopyTypes) (mode : Mode) (cf ct : Pos)
    (n counter : Nat)
    (hb : isBlank (getLine doc n) = true)
    (hn : ¬(n = cf.line ∧ cf.line = ct.line)) :
    processLine doc env s copy mode cf ct n counter =
      (getLine doc n,
       some (computeCopiedLine s cf ct n (getLine doc n)), counter) := by
  simp only [processLine]
  rw [if_pos ⟨hb, hn⟩]

/-- Witness for `c6_amended_blank_shortcut`: the interior blank line of a
three-line selection passes through unchanged. -/
theorem c6_amended_witness :
    processLine ["a", "", "b"] testEnv DEFAULT_SETTINGS
      CopyTypes.SeparateLines Mode.LinkTextFromSettings ⟨0, 0⟩ ⟨2, 1⟩ 1 0 =
      (getLine ["a", "", "b"] 1,
       some (computeCopiedLine DEFAULT_SETTINGS ⟨0, 0⟩ ⟨2, 1⟩ 1
         (getLine ["a", "", "b"] 1)), 0) :=
  c6_amended_blank_shortcut ["a", "", "b"] testEnv DEFAULT_SETTINGS
    CopyTypes.SeparateLines Mode.LinkTextFromSettings ⟨0, 0⟩ ⟨2, 1⟩ 1 0
    rfl (by decide)

/-! ### From/to substitution gating (claim C8) -/

/-- C8 (corrected, counterexample): in CombinedLines mode with a regex
engine that rewrites every input to `"X"`, a two-line selection yields
copied lines `["X", "cd"]`: the substitution was applied to the first
line only, while the claim predicts it applies to every copied line
(which would give `"X"` for the second line as well). -/
theorem c8_counterexample :
    copiedOf (copyForwardLines ["ab", "cd"] envConstX DEFAULT_SETTINGS
        CopyTypes.CombinedLines Mode.LinkTextFromSettings ⟨0, 0⟩ ⟨1, 2⟩) =
      ["X", "cd"] ∧ ("cd" : String) ≠ "X" := by
  constructor
  · rfl
  · decide

/-- C8 (amended): the configured from/to substitution is applied to every
copied line that receives a link unit: in SeparateLines mode that is
every non-blank selected line, while in CombinedLines mode it is only the
first selected line — every later line is copied with only the boundary
pre-processing and no substitution. -/
theorem c8_amended_substitution_gate (doc : List String) (env : Env)
    (s : Settings) (mode : Mode) (cf ct : Pos) (n counter : Nat)
    (hnb : isBlank (getLine doc n) = false) :
    (n ≠ cf.line →
      processLine doc env s CopyTypes.CombinedLines mode cf ct n counter =
        (getLine doc n,
         some (computeCopiedLine s cf ct n (getLine doc n)), counter)) ∧
    (∃ link base,
      (processLine doc env s CopyTypes.SeparateLines mode cf ct n
          counter).2.1 =
        some (env.regexReplaceFirst s.lineFormatFrom
          (replaceFirstStr s.lineFormatTo linkToken link) base)) := by
  constructor
  · intro hne
    simp only [processLine]
    rw [if_neg (by simp [hnb])]
    rw [if_neg (by simp [hne])]
    simp [outGate]
  · simp only [processLine]
    rw [if_neg (by simp [hnb])]
    rw [if_pos (show True ∨ n = cf.line from Or.inl trivial)]
    cases hB : lineBlockID (getLine doc n) with
    | none =>
      refine ⟨env.genLink ("#" ++ ("^" ++ env.ids counter))
        (linkTextFor env s mode),
        computeCopiedLine s cf ct n (getLine doc n), ?_⟩
      simp [outGate, composeCarry]
    | some m =>
      refine ⟨env.genLink ("#" ++ String.mk m) (linkTextFor env s mode),
        removeBlockIDStr (computeCopiedLine s cf ct n (getLine doc n)), ?_⟩
      simp [outGate, composeCarry]

/-- Witness for `c8_amended_substitution_gate`: the second line of a
two-line CombinedLines selection passes through unsubstituted. -/
theorem c8_amended_witness :
    processLine ["ab", "cd"] envConstX DEFAULT_SETTINGS
      CopyTypes.CombinedLines Mode.LinkTextFromSettings ⟨0, 0⟩ ⟨1, 2⟩ 1 0 =
      (getLine ["ab", "cd"] 1,
       some (computeCopiedLine DEFAULT_SETTINGS ⟨0, 0⟩ ⟨1, 2⟩ 1
         (getLine ["ab", "cd"] 1)), 0) :=
  (c8_amended_substitution_gate ["ab", "cd"] envConstX DEFAULT_SETTINGS
    Mode.LinkTextFromSettings ⟨0, 0⟩ ⟨1, 2⟩ 1 0 rfl).1 (by decide)

/-! ### LinkOnly / LinkOnlyEmbed gating (claim C5) -/

theorem runLines_nil (doc : List String) (env : Env) (s : Settings)
    (copy : CopyTypes) (mode : Mode) (cf ct : Pos) (counter : Nat) :
    runLines doc env s copy mode cf ct [] counter = ([], [], counter) := rfl

theorem runLines_cons (doc : List String) (env : Env) (s : Settings)
    (copy : CopyTypes) (mode : Mode) (cf ct : Pos) (n : Nat)
    (rest : List Nat) (counter : Nat) :
    runLines doc env s copy mode cf ct (n :: rest) counter =
    (let r := processLine doc env s copy mode cf ct n counter
     let k := runLines doc env s copy mode cf ct rest r.2.2
     (r.1 :: k.1,
      (match r.2.1 with
       | some c => c :: k.2.1
       | none => k.2.1),
      k.2.2)) := rfl

theorem mem_lineNums {n : Nat} :
    ∀ {s k : Nat}, n ∈ lineNums s k ↔ s ≤ n ∧ n < s + k := by
  intro s k
  induction k generalizing s with
  | zero =>
    rw [show lineNums s 0 = [] from rfl]
    constructor
    · intro h
      exact absurd h (List.not_mem_nil n)
    · intro h
      omega
  | succ k ih =>
    show n ∈ s :: lineNums (s + 1) k ↔ _
    rw [List.mem_cons, ih]
    omega

/-- In LinkOnly/LinkOnlyEmbed modes, a non-blank line other than the
first passes through: original text kept, nothing contributed to the
copied output, no `genID` call. -/
theorem processLine_linkonly_rest (doc : List String) (env : Env)
    (s : Settings) (copy : CopyTypes) (mode : Mode) (cf ct : Pos)
    (n counter : Nat)
    (hcopy : copy = CopyTypes.LinkOnly ∨ copy = CopyTypes.LinkOnlyEmbed)
    (hne : n ≠ cf.line)
    (hnb : isBlank (getLine doc n) = false) :
    processLine doc env s copy mode cf ct n counter =
      (getLine doc n, none, counter) := by
  simp only [processLine]
  rw [if_neg (by simp [hnb])]
  rw [if_neg (by
    rintro (hsl | hfl)
    · rcases hcopy with h | h <;> rw [h] at hsl <;> exact absurd hsl (by decide)
    · exact hne hfl)]
  unfold outGate
  rw [if_pos ⟨hcopy, hne⟩]

/-- Every non-first, non-blank line of a LinkOnly/LinkOnlyEmbed run
passes through with no copied contribution. -/
theorem runLines_linkonly_tail (doc : List String) (env : Env)
    (s : Settings) (copy : CopyTypes) (mode : Mode) (cf ct : Pos)
    (hcopy : copy = CopyTypes.LinkOnly ∨ copy = CopyTypes.LinkOnlyEmbed) :
    ∀ (lns : List Nat) (counter : Nat),
      (∀ n ∈ lns, n ≠ cf.line ∧ isBlank (getLine doc n) = false) →
      runLines doc env s copy mode cf ct lns counter =
        (lns.map (getLine doc), [], counter)
  | [], counter, _ => rfl
  | n :: rest, counter, h => by
    rw [runLines_cons]
    have hn := h n (List.mem_cons_self n rest)
    rw [processLine_linkonly_rest doc env s copy mode cf ct n counter hcopy
      hn.1 hn.2]
    dsimp only
    rw [runLines_linkonly_tail doc env s copy mode cf ct hcopy rest counter
      (fun m hm => h m (List.mem_cons_of_mem n hm))]
    rfl

/-- The first line of any selection always contributes exactly one entry
to the copied output. -/
theorem processLine_first_some (doc : List String) (env : Env)
    (s : Settings) (copy : CopyTypes) (mode : Mode) (cf ct : Pos)
    (counter : Nat) :
    ∃ u c0 ctr,
      processLine doc env s copy mode cf ct cf.line counter =
        (u, some c0, ctr) := by
  unfold processLine
  dsimp only
  by_cases hb : isBlank (getLine doc cf.line) = true ∧
      ¬(cf.line = cf.line ∧ cf.line = ct.line)
  · rw [if_pos hb]
    exact ⟨_, _, _, rfl⟩
  · rw [if_neg hb]
    rw [if_pos (Or.inr rfl)]
    have hgate : ∀ c : String, outGate copy cf.line cf.line c = some c := by
      intro c
      unfold outGate
      rw [if_neg (fun hcon => hcon.2 rfl)]
    cases lineBlockID (getLine doc cf.line) with
    | none =>
      dsimp only
      rw [hgate]
      exact ⟨_, _, _, rfl⟩
    | some m =>
      dsimp only
      rw [hgate]
      exact ⟨_, _, _, rfl⟩

/-- C5 (corrected, counterexample): a three-line LinkOnly selection over
`["a", "", "b"]` produces two copied lines, not one — the blank middle
line bypasses the output gate via the blank-line shortcut and is pushed
to the copied output. -/
theorem c5_counterexample :
    (copiedOf (copyForwardLines ["a", "", "b"] testEnv DEFAULT_SETTINGS
        CopyTypes.LinkOnly Mode.LinkTextFromSettings ⟨0, 0⟩ ⟨2, 1⟩)).length
      = 2 := rfl

/-- C5 (amended): for a multi-line LinkOnly or LinkOnlyEmbed selection
whose lines after the first are all non-blank, the copied output contains
exactly one line, while the rewritten source range still receives one
entry per selected line and every line after the first keeps its original
text (only the first line can gain or reuse an anchor).  Blank lines
after the first would additionally pass through into the copied output. -/
theorem c5_amended_link_only_gating (doc : List String) (env : Env)
    (s : Settings) (copy : CopyTypes) (mode : Mode) (cf ct : Pos)
    (hcopy : copy = CopyTypes.LinkOnly ∨ copy = CopyTypes.LinkOnlyEmbed)
    (hml : cf.line < ct.line)
    (hc : env.regexCompiles (unescapeSetting s.lineFormatFrom) = true)
    (hnb : ∀ n, cf.line < n → n ≤ ct.line →
      isBlank (getLine doc n) = false) :
    ∃ o : TransformOut,
      copyForwardLines doc env s copy mode cf ct = Except.ok o ∧
      o.copiedLines.length = 1 ∧
      (∃ first, o.updatedLines =
        first ::
          (lineNums (cf.line + 1) (ct.line - cf.line)).map (getLine doc)) := by
  obtain ⟨u, c0, ctr, hhead⟩ :=
    processLine_first_some doc env s copy mode cf ct 0
  have htail := runLines_linkonly_tail doc env s copy mode cf ct hcopy
    (lineNums (cf.line + 1) (ct.line - cf.line)) ctr
    (fun n hn => by
      rw [mem_lineNums] at hn
      exact ⟨by omega, hnb n (by omega) (by omega)⟩)
  unfold copyForwardLines
  rw [if_pos (by simp [validateRegex, hc])]
  dsimp only
  rw [show ct.line + 1 - cf.line = (ct.line - cf.line) + 1 by omega]
  rw [show lineNums cf.line ((ct.line - cf.line) + 1) =
    cf.line :: lineNums (cf.line + 1) (ct.line - cf.line) from rfl]
  rw [runLines_cons]
  simp only [hhead, htail]
  exact ⟨_, rfl, rfl, u, rfl⟩

/-- Witness for `c5_amended_link_only_gating`: a three-line LinkOnly
selection with non-blank later lines copies exactly one line. -/
theorem c5_amended_witness :
    (copiedOf (copyForwardLines ["a", "x", "b"] testEnv DEFAULT_SETTINGS
        CopyTypes.LinkOnly Mode.LinkTextFromSettings ⟨0, 0⟩ ⟨2, 1⟩)).length
      = 1 := by
  obtain ⟨o, hok, hlen, _⟩ := c5_amended_link_only_gating ["a", "x", "b"]
    testEnv DEFAULT_SETTINGS CopyTypes.LinkOnly Mode.LinkTextFromSettings
    ⟨0, 0⟩ ⟨2, 1⟩ (Or.inl rfl) (by decide) rfl
    (by intro n h1 h2; interval_cases n <;> rfl)
  rw [hok]
  exact hlen

/-! ### New-token generation (claim C9) -/

/-- Every character of the `genID` alphabet is a lowercase letter, a
digit or a hyphen. -/
theorem characters_newIDChar :
    ∀ c ∈ characters, isNewIDChar c = true := by decide

/-- C9 (confirmed): for a line without a recognized trailing anchor, the
generated token is `^` followed by exactly 5 characters drawn from
`[a-z0-9-]` (6 characters total), and it is treated as newly created:
appended (after a space, replacing trailing whitespace) to the rewritten
line, with the `genID` call counter advanced — not treated as an existing
anchor. -/
theorem c9_new_token (draws : Nat → Fin 37) (doc : List String) (env : Env)
    (s : Settings) (mode : Mode) (cf ct : Pos) (n counter : Nat)
    (hids : env.ids counter = genIDFrom draws)
    (hno : lineBlockID (getLine doc n) = none)
    (hb : ¬(isBlank (getLine doc n) = true ∧
      ¬(n = cf.line ∧ cf.line = ct.line))) :
    ("^" ++ genIDFrom draws).length = 6 ∧
    ("^" ++ genIDFrom draws).toList.head? = some '^' ∧
    (("^" ++ genIDFrom draws).toList.tail).all isNewIDChar = true ∧
    (processLine doc env s CopyTypes.SeparateLines mode cf ct n counter).1 =
      String.mk (rstripL (getLine doc n).toList ++
        (' ' :: ("^" ++ genIDFrom draws).toList)) ∧
    (processLine doc env s CopyTypes.SeparateLines mode cf ct n
        counter).2.2 = counter + 1 := by
  have hpl : processLine doc env s CopyTypes.SeparateLines mode cf ct n
      counter =
      (String.mk (rstripL (getLine doc n).toList ++
         (' ' :: ("^" ++ env.ids counter).toList)),
       some (composeCarry env s (computeCopiedLine s cf ct n (getLine doc n))
         (env.genLink ("#" ++ ("^" ++ env.ids counter))
           (linkTextFor env s mode))),
       counter + 1) := by
    unfold processLine
    dsimp only
    rw [if_neg hb, if_pos (Or.inl rfl), hno]
    dsimp only
    rw [if_neg (show ¬(CopyTypes.SeparateLines = CopyTypes.LinkOnly ∨
      CopyTypes.SeparateLines = CopyTypes.LinkOnlyEmbed) by decide)]
    unfold outGate
    rw [if_neg (fun hcon => absurd hcon.1 (by decide))]
  refine ⟨rfl, rfl, ?_, ?_, ?_⟩
  · show ((genIDFrom draws).toList).all isNewIDChar = true
    rw [List.all_eq_true]
    intro x hx
    rw [show (genIDFrom draws).toList =
      (List.range 5).map (fun i =>
        characters.get (Fin.cast characters_length.symm (draws i)))
      from rfl] at hx
    rw [List.mem_map] at hx
    obtain ⟨i, _, rfl⟩ := hx
    exact characters_newIDChar _ (List.get_mem characters _ _)
  · rw [hpl, hids]
  · rw [hpl]

/-- A concrete draw stream for the `genID` model. -/
def drawsW : Nat → Fin 37 := fun i => ⟨i % 37, Nat.mod_lt i (by decide)⟩

/-- Witness for `c9_new_token` at a concrete input: line `"hello"`,
single-line caret selection, draws yielding `"abcde"`. -/
theorem c9_witness :
    ("^" ++ genIDFrom drawsW).length = 6 ∧
    ("^" ++ genIDFrom drawsW).toList.head? = some '^' ∧
    (("^" ++ genIDFrom drawsW).toList.tail).all isNewIDChar = true ∧
    (processLine ["hello"] testEnv DEFAULT_SETTINGS CopyTypes.SeparateLines
        Mode.LinkTextFromSettings ⟨0, 0⟩ ⟨0, 0⟩ 0 0).1 =
      String.mk (rstripL (getLine ["hello"] 0).toList ++
        (' ' :: ("^" ++ genIDFrom drawsW).toList)) ∧
    (processLine ["hello"] testEnv DEFAULT_SETTINGS CopyTypes.SeparateLines
        Mode.LinkTextFromSettings ⟨0, 0⟩ ⟨0, 0⟩ 0 0).2.2 = 0 + 1 :=
  c9_new_token drawsW ["hello"] testEnv DEFAULT_SETTINGS
    Mode.LinkTextFromSettings ⟨0, 0⟩ ⟨0, 0⟩ 0 0 rfl rfl (by decide)

/-! ### Anchor reuse / idempotence (claim C3) -/

/-- Blank-line pass-through of the main loop (the shortcut of
`src/main.ts` lines 105-112), as a reusable helper. -/
theorem processLine_blank (doc : List String) (env : Env) (s : Settings)
    (copy : CopyTypes) (mode : Mode) (cf ct : Pos) (n counter : Nat)
    (hb : isBlank (getLine doc n) = true)
    (hn : ¬(n = cf.line ∧ cf.line = ct.line)) :
    processLine doc env s copy mode cf ct n counter =
      (getLine doc n,
       some (computeCopiedLine s cf ct n (getLine doc n)), counter) := by
  simp only [processLine]
  rw [if_pos ⟨hb, hn⟩]

/-- In SeparateLines mode, a line that reaches the anchor step and has no
recognized anchor gets a fresh token appended (after the trailing
whitespace is replaced by a single space) and advances the `genID`
counter. -/
theorem processLine_newID (doc : List String) (env : Env) (s : Settings)
    (mode : Mode) (cf ct : Pos) (n counter : Nat)
    (hb : ¬(isBlank (getLine doc n) = true ∧
      ¬(n = cf.line ∧ cf.line = ct.line)))
    (hno : lineBlockID (getLine doc n) = none) :
    processLine doc env s CopyTypes.SeparateLines mode cf ct n counter =
      (String.mk (rstripL (getLine doc n).toList ++
         (' ' :: ("^" ++ env.ids counter).toList)),
       some (composeCarry env s (computeCopiedLine s cf ct n (getLine doc n))
         (env.genLink ("#" ++ ("^" ++ env.ids counter))
           (linkTextFor env s mode))),
       counter + 1) := by
  unfold processLine
  dsimp only
  rw [if_neg hb, if_pos (Or.inl rfl), hno]
  dsimp only
  rw [if_neg (show ¬(CopyTypes.SeparateLines = CopyTypes.LinkOnly ∨
    CopyTypes.SeparateLines = CopyTypes.LinkOnlyEmbed) by decide)]
  unfold outGate
  rw [if_neg (fun hcon => absurd hcon.1 (by decide))]

/-- In SeparateLines mode, a line that reaches the anchor step and
already carries a recognized anchor is left unchanged and consumes no
`genID` call. -/
theorem processLine_existingID (doc : List String) (env : Env)
    (s : Settings) (mode : Mode) (cf ct : Pos) (n counter : Nat)
    (m : List Char)
    (hb : ¬(isBlank (getLine doc n) = true ∧
      ¬(n = cf.line ∧ cf.line = ct.line)))
    (hm : lineBlockID (getLine doc n) = some m) :
    processLine doc env s CopyTypes.SeparateLines mode cf ct n counter =
      (getLine doc n,
       some (composeCarry env s
         (removeBlockIDStr (computeCopiedLine s cf ct n (getLine doc n)))
         (env.genLink ("#" ++ String.mk m) (linkTextFor env s mode))),
       counter) := by
  unfold processLine
  dsimp only
  rw [if_neg hb, if_pos (Or.inl rfl), hm]
  dsimp only
  rw [if_neg (show ¬(CopyTypes.SeparateLines = CopyTypes.LinkOnly ∨
    CopyTypes.SeparateLines = CopyTypes.LinkOnlyEmbed) by decide)]
  unfold outGate
  rw [if_neg (fun hcon => absurd hcon.1 (by decide))]

theorem toList_caret (x : String) : ("^" ++ x).toList = '^' :: x.toList :=
  rfl

/-- A line ending in a space-separated anchor token is never blank. -/
theorem isBlank_anchor_line (l1 l2 : List Char) :
    isBlank (String.mk (l1 ++ (' ' :: '^' :: l2))) = false := by
  show (l1 ++ (' ' :: '^' :: l2)).all isJsWs = false
  rw [List.all_append, List.all_cons, List.all_cons]
  rw [show isJsWs '^' = false from rfl]
  simp

/-- The components of a valid `genID` result. -/
theorem isValidID_parts {x : String} (h : isValidID x = true) :
    x.toList ≠ [] ∧ x.toList.all isAnchorChar = true := by
  unfold isValidID at h
  rw [Bool.and_eq_true] at h
  exact ⟨of_decide_eq_true h.1, h.2⟩

/-- Appending a space and a valid anchor token to any character list
produces a line on which `blockIDRegex` matches. -/
theorem lineBlockID_anchor_line (l1 : List Char) (x : String)
    (hne : x.toList ≠ []) (hall : x.toList.all isAnchorChar = true) :
    ∃ m, lineBlockID (String.mk (l1 ++ (' ' :: ("^" ++ x).toList)))
      = some m := by
  have h2 := findBlockID_isSome_of_split l1 none ' ' x.toList
    (Or.inl (by decide)) hne hall
  exact Option.isSome_iff_exists.mp h2

/-- Core of the idempotence argument: re-running the SeparateLines loop
over the lines produced by a first run on originally anchor-free lines
reproduces those lines exactly and makes no `genID` call.  `i` is the
number of lines already processed; the first run works on line numbers
`cf.line + i + j` of `doc`, the second on line numbers `i + j` of `doc2`
(whose lines agree with the first run's output). -/
theorem runLines_second_pass (doc doc2 : List String) (env : Env)
    (s : Settings) (mode mode2 : Mode) (cf ct cf2 ct2 : Pos)
    (hids : ∀ k, isValidID (env.ids k) = true)
    (heq : cf.line = ct.line ↔ cf2.line = ct2.line)
    (hcf2 : cf2.line = 0) :
    ∀ (c i ctr ctr2 : Nat),
      (∀ j, j < c → lineBlockID (getLine doc (cf.line + i + j)) = none) →
      (∀ j, j < c → getLine doc2 (i + j) =
        (runLines doc env s CopyTypes.SeparateLines mode cf ct
          (lineNums (cf.line + i) c) ctr).1.getD j "") →
      (runLines doc2 env s CopyTypes.SeparateLines mode2 cf2 ct2
          (lineNums i c) ctr2).1 =
        (runLines doc env s CopyTypes.SeparateLines mode cf ct
          (lineNums (cf.line + i) c) ctr).1 ∧
      (runLines doc2 env s CopyTypes.SeparateLines mode2 cf2 ct2
          (lineNums i c) ctr2).2.2 = ctr2 := by
  intro c
  induction c with
  | zero =>
    intro i ctr ctr2 _ _
    exact ⟨rfl, rfl⟩
  | succ c ih =>
    intro i ctr ctr2 hfree hdoc2
    have hno0 : lineBlockID (getLine doc (cf.line + i)) = none := by
      have h := hfree 0 (Nat.succ_pos c)
      rwa [Nat.add_zero] at h
    by_cases hG : isBlank (getLine doc (cf.line + i)) = true ∧
        ¬(cf.line + i = cf.line ∧ cf.line = ct.line)
    · -- blank pass-through in both runs
      have h1 : processLine doc env s CopyTypes.SeparateLines mode cf ct
          (cf.line + i) ctr =
          (getLine doc (cf.line + i),
           some (computeCopiedLine s cf ct (cf.line + i)
             (getLine doc (cf.line + i))), ctr) :=
        processLine_blank doc env s CopyTypes.SeparateLines mode cf ct
          (cf.line + i) ctr hG.1 hG.2
      have hl2 : getLine doc2 i = getLine doc (cf.line + i) := by
        have h0 := hdoc2 0 (Nat.succ_pos c)
        rw [show lineNums (cf.line + i) (c + 1) =
          (cf.line + i) :: lineNums (cf.line + i + 1) c from rfl,
          runLines_cons] at h0
        rw [h1] at h0
        simpa using h0
      have hn2 : ¬(i = cf2.line ∧ cf2.line = ct2.line) := by
        intro hcon
        apply hG.2
        refine ⟨?_, heq.mpr hcon.2⟩
        have hi0 : i = 0 := by rw [hcon.1, hcf2]
        omega
      have h2 : processLine doc2 env s CopyTypes.SeparateLines mode2 cf2 ct2
          i ctr2 =
          (getLine doc2 i,
           some (computeCopiedLine s cf2 ct2 i (getLine doc2 i)), ctr2) :=
        processLine_blank doc2 env s CopyTypes.SeparateLines mode2 cf2 ct2
          i ctr2 (by rw [hl2]; exact hG.1) hn2
      have hfree' : ∀ j, j < c →
          lineBlockID (getLine doc (cf.line + (i + 1) + j)) = none := by
        intro j hj
        have h := hfree (j + 1) (Nat.succ_lt_succ hj)
        rwa [show cf.line + i + (j + 1) = cf.line + (i + 1) + j from by omega]
          at h
      have hdoc2' : ∀ j, j < c → getLine doc2 (i + 1 + j) =
          (runLines doc env s CopyTypes.SeparateLines mode cf ct
            (lineNums (cf.line + (i + 1)) c) ctr).1.getD j "" := by
        intro j hj
        have h0 := hdoc2 (j + 1) (Nat.succ_lt_succ hj)
        rw [show lineNums (cf.line + i) (c + 1) =
          (cf.line + i) :: lineNums (cf.line + i + 1) c from rfl,
          runLines_cons] at h0
        rw [h1] at h0
        dsimp only at h0
        rw [List.getD_cons_succ] at h0
        rw [show i + (j + 1) = i + 1 + j from by omega] at h0
        rwa [show cf.line + (i + 1) = cf.line + i + 1 from by omega]
      obtain ⟨ihu, ihc⟩ := ih (i + 1) ctr ctr2 hfree' hdoc2'
      rw [show cf.line + (i + 1) = cf.line + i + 1 from by omega] at ihu
      rw [show lineNums i (c + 1) = i :: lineNums (i + 1) c from rfl,
        show lineNums (cf.line + i) (c + 1) =
          (cf.line + i) :: lineNums (cf.line + i + 1) c from rfl,
        runLines_cons, runLines_cons, h1, h2]
      dsimp only
      exact ⟨by rw [hl2, ihu], ihc⟩
    · -- anchor-appending path in the first run, reuse in the second
      have h1 : processLine doc env s CopyTypes.SeparateLines mode cf ct
          (cf.line + i) ctr =
          (String.mk (rstripL (getLine doc (cf.line + i)).toList ++
             (' ' :: ("^" ++ env.ids ctr).toList)),
           some (composeCarry env s
             (computeCopiedLine s cf ct (cf.line + i)
               (getLine doc (cf.line + i)))
             (env.genLink ("#" ++ ("^" ++ env.ids ctr))
               (linkTextFor env s mode))),
           ctr + 1) :=
        processLine_newID doc env s mode cf ct (cf.line + i) ctr hG hno0
      have hl2 : getLine doc2 i =
          String.mk (rstripL (getLine doc (cf.line + i)).toList ++
            (' ' :: ("^" ++ env.ids ctr).toList)) := by
        have h0 := hdoc2 0 (Nat.succ_pos c)
        rw [show lineNums (cf.line + i) (c + 1) =
          (cf.line + i) :: lineNums (cf.line + i + 1) c from rfl,
          runLines_cons] at h0
        rw [h1] at h0
        simpa using h0
      have hbu : isBlank (getLine doc2 i) = false := by
        rw [hl2]
        exact isBlank_anchor_line (rstripL (getLine doc (cf.line + i)).toList)
          (env.ids ctr).toList
      have hb2 : ¬(isBlank (getLine doc2 i) = true ∧
          ¬(i = cf2.line ∧ cf2.line = ct2.line)) := by
        intro hcon
        rw [hbu] at hcon
        exact absurd hcon.1 (by decide)
      obtain ⟨hvne, hvall⟩ := isValidID_parts (hids ctr)
      obtain ⟨m, hm⟩ : ∃ m, lineBlockID (getLine doc2 i) = some m := by
        rw [hl2]
        exact lineBlockID_anchor_line
          (rstripL (getLine doc (cf.line + i)).toList) (env.ids ctr)
          hvne hvall
      have h2 : processLine doc2 env s CopyTypes.SeparateLines mode2 cf2 ct2
          i ctr2 =
          (getLine doc2 i,
           some (composeCarry env s
             (removeBlockIDStr (computeCopiedLine s cf2 ct2 i
               (getLine doc2 i)))
             (env.genLink ("#" ++ String.mk m) (linkTextFor env s mode2))),
           ctr2) :=
        processLine_existingID doc2 env s mode2 cf2 ct2 i ctr2 m hb2 hm
      have hfree' : ∀ j, j < c →
          lineBlockID (getLine doc (cf.line + (i + 1) + j)) = none := by
        intro j hj
        have h := hfree (j + 1) (Nat.succ_lt_succ hj)
        rwa [show cf.line + i + (j + 1) = cf.line + (i + 1) + j from by omega]
          at h
      have hdoc2' : ∀ j, j < c → getLine doc2 (i + 1 + j) =
          (runLines doc env s CopyTypes.SeparateLines mode cf ct
            (lineNums (cf.line + (i + 1)) c) (ctr + 1)).1.getD j "" := by
        intro j hj
        have h0 := hdoc2 (j + 1) (Nat.succ_lt_succ hj)
        rw [show lineNums (cf.line + i) (c + 1) =
          (cf.line + i) :: lineNums (cf.line + i + 1) c from rfl,
          runLines_cons] at h0
        rw [h1] at h0
        dsimp only at h0
        rw [List.getD_cons_succ] at h0
        rw [show i + (j + 1) = i + 1 + j from by omega] at h0
        rwa [show cf.line + (i + 1) = cf.line + i + 1 from by omega]
      obtain ⟨ihu, ihc⟩ := ih (i + 1) (ctr + 1) ctr2 hfree' hdoc2'
      rw [show cf.line + (i + 1) = cf.line + i + 1 from by omega] at ihu
      rw [show lineNums i (c + 1) = i :: lineNums (i + 1) c from rfl,
        show lineNums (cf.line + i) (c + 1) =
          (cf.line + i) :: lineNums (cf.line + i + 1) c from rfl,
        runLines_cons, runLines_cons, h1, h2]
      dsimp only
      exact ⟨by rw [hl2, ihu], ihc⟩

/-- C3 (confirmed): running the SeparateLines transform over the lines
rewritten by a first run on an originally anchor-free selection detects
the anchors appended by the first run as existing anchors, generates no
new tokens (`idsUsed = 0`), and leaves the rewritten lines unchanged. -/
theorem c3_idempotence (doc : List String) (env : Env) (s : Settings)
    (mode : Mode) (cf ct : Pos)
    (hc : env.regexCompiles (unescapeSetting s.lineFormatFrom) = true)
    (hle : cf.line ≤ ct.line)
    (hids : ∀ k, isValidID (env.ids k) = true)
    (hfree : ∀ n, lineBlockID (getLine doc n) = none) :
    ∃ o1 o2 : TransformOut,
      copyForwardLines doc env s CopyTypes.SeparateLines mode cf ct =
        Except.ok o1 ∧
      copyForwardLines o1.updatedLines env s CopyTypes.SeparateLines mode
        ⟨0, 0⟩ ⟨ct.line - cf.line, 0⟩ = Except.ok o2 ∧
      o2.updatedLines = o1.updatedLines ∧ o2.idsUsed = 0 := by
  have hval : (validateRegex env.regexCompiles env.regexErrorText
      s.lineFormatFrom).1 = true := by simp [validateRegex, hc]
  have hcnt : (ct.line - cf.line) + 1 - 0 = ct.line + 1 - cf.line := by omega
  have hrun1 : copyForwardLines doc env s CopyTypes.SeparateLines mode cf ct
      = Except.ok
        ⟨(runLines doc env s CopyTypes.SeparateLines mode cf ct
            (lineNums cf.line (ct.line + 1 - cf.line)) 0).1,
         (runLines doc env s CopyTypes.SeparateLines mode cf ct
            (lineNums cf.line (ct.line + 1 - cf.line)) 0).2.1,
         String.intercalate "\n"
           (runLines doc env s CopyTypes.SeparateLines mode cf ct
             (lineNums cf.line (ct.line + 1 - cf.line)) 0).2.1,
         (runLines doc env s CopyTypes.SeparateLines mode cf ct
            (lineNums cf.line (ct.line + 1 - cf.line)) 0).2.2⟩ := by
    unfold copyForwardLines
    rw [if_pos hval]
  have hrun2 : copyForwardLines
      (runLines doc env s CopyTypes.SeparateLines mode cf ct
        (lineNums cf.line (ct.line + 1 - cf.line)) 0).1
      env s CopyTypes.SeparateLines mode ⟨0, 0⟩ ⟨ct.line - cf.line, 0⟩ =
      Except.ok
        ⟨(runLines
            (runLines doc env s CopyTypes.SeparateLines mode cf ct
              (lineNums cf.line (ct.line + 1 - cf.line)) 0).1
            env s CopyTypes.SeparateLines mode ⟨0, 0⟩
            ⟨ct.line - cf.line, 0⟩
            (lineNums 0 (ct.line + 1 - cf.line)) 0).1,
         (runLines
            (runLines doc env s CopyTypes.SeparateLines mode cf ct
              (lineNums cf.line (ct.line + 1 - cf.line)) 0).1
            env s CopyTypes.SeparateLines mode ⟨0, 0⟩
            ⟨ct.line - cf.line, 0⟩
            (lineNums 0 (ct.line + 1 - cf.line)) 0).2.1,
         String.intercalate "\n"
           (runLines
             (runLines doc env s CopyTypes.SeparateLines mode cf ct
               (lineNums cf.line (ct.line + 1 - cf.line)) 0).1
             env s CopyTypes.SeparateLines mode ⟨0, 0⟩
             ⟨ct.line - cf.line, 0⟩
             (lineNums 0 (ct.line + 1 - cf.line)) 0).2.1,
         (runLines
            (runLines doc env s CopyTypes.SeparateLines mode cf ct
              (lineNums cf.line (ct.line + 1 - cf.line)) 0).1
            env s CopyTypes.SeparateLines mode ⟨0, 0⟩
            ⟨ct.line - cf.line, 0⟩
            (lineNums 0 (ct.line + 1 - cf.line)) 0).2.2⟩ := by
    unfold copyForwardLines
    rw [if_pos hval]
    dsimp only
    rw [hcnt]
  have haux := runLines_second_pass doc
    (runLines doc env s CopyTypes.SeparateLines mode cf ct
      (lineNums cf.line (ct.line + 1 - cf.line)) 0).1
    env s mode mode cf ct ⟨0, 0⟩ ⟨ct.line - cf.line, 0⟩ hids
    (by
      show cf.line = ct.line ↔ (0 : Nat) = ct.line - cf.line
      omega)
    rfl
    (ct.line + 1 - cf.line) 0 0 0
    (fun j _ => by
      rw [show cf.line + 0 + j = cf.line + j from by omega]
      exact hfree _)
    (fun j hj => by
      show (runLines doc env s CopyTypes.SeparateLines mode cf ct
          (lineNums cf.line (ct.line + 1 - cf.line)) 0).1.getD (0 + j) "" =
        (runLines doc env s CopyTypes.SeparateLines mode cf ct
          (lineNums (cf.line + 0) (ct.line + 1 - cf.line)) 0).1.getD j ""
      rw [show (0 : Nat) + j = j from by omega,
        show cf.line + 0 = cf.line from rfl])
  rw [Nat.add_zero] at haux
  exact ⟨_, _, hrun1, hrun2, haux.1, haux.2⟩

/-- Witness for `c3_idempotence`: a three-line selection (with a blank
interior line and trailing whitespace on the last line) is stable under a
second SeparateLines run. -/
theorem c3_idempotence_witness :
    updatedOf (copyForwardLines
      (updatedOf (copyForwardLines ["hello", "", "world  "] testEnv
        DEFAULT_SETTINGS CopyTypes.SeparateLines Mode.LinkTextFromSettings
        ⟨0, 0⟩ ⟨2, 3⟩))
      testEnv DEFAULT_SETTINGS CopyTypes.SeparateLines
      Mode.LinkTextFromSettings ⟨0, 0⟩ ⟨2, 0⟩) =
    updatedOf (copyForwardLines ["hello", "", "world  "] testEnv
      DEFAULT_SETTINGS CopyTypes.SeparateLines Mode.LinkTextFromSettings
      ⟨0, 0⟩ ⟨2, 3⟩) := by
  obtain ⟨o1, o2, h1, h2, h3, _⟩ := c3_idempotence ["hello", "", "world  "]
    testEnv DEFAULT_SETTINGS Mode.LinkTextFromSettings ⟨0, 0⟩ ⟨2, 3⟩
    rfl (by decide) (fun _ => rfl)
    (by
      intro n
      match n with
      | 0 => rfl
      | 1 => rfl
      | 2 => rfl
      | (k + 3) =>
        have hg : getLine ["hello", "", "world  "] (k + 3) = "" := by
          simp [getLine]
        rw [hg]
        rfl)
  have h2x : copyForwardLines o1.updatedLines testEnv DEFAULT_SETTINGS
      CopyTypes.SeparateLines Mode.LinkTextFromSettings ⟨0, 0⟩ ⟨2, 0⟩ =
      Except.ok o2 := h2
  rw [h1]
  show updatedOf (copyForwardLines o1.updatedLines testEnv DEFAULT_SETTINGS
    CopyTypes.SeparateLines Mode.LinkTextFromSettings ⟨0, 0⟩ ⟨2, 0⟩) =
    o1.updatedLines
  rw [h2x]
  exact h3
